import Mathlib

/-!
Verification of the transport multiplexer of `rs-matter`
(`src/rs-matter/src/transport/core.rs`).

The development is a shallow embedding of the transport core: the exchange
table, the RX multiplexer (`process_rx` and its helpers `assign_exchange`,
`register`, `purge`, `evict_session`, `send_busy`, `send_ephemeral`) and the
TX pump entry points (`pull_tx`, `pull_tx_exchanges`).  Pure functions of the
source become Lean functions; the mutable `Matter` object becomes an explicit
`TransportState` threaded through the operations; asynchronous signalling
(`Notification::signal`) and the actual datagram emission become an explicit
list of `Effect`s produced by each operation; fallible code returns `Except`.

Types that the transport core uses but whose definitions live outside the
available source file (`exchange.rs`, `mrp.rs`, `session.rs`,
`status_report.rs`) are modelled from the specification; each such definition
carries a doc comment starting with `Modelled from the spec:`.
-/

/-- Error codes of `ErrorCode` (`error.rs`) used by the transport core.
`Todo` is a model-level marker standing for the source's `todo!()` panics
(the unimplemented match arms of `process_rx`). -/
inductive ErrorCode where
  | Duplicate
  | NoSpaceSessions
  | NoSpaceExchanges
  | NoExchange
  | NoSession
  | Invalid
  | Todo
  deriving DecidableEq, Repr

/-- Modelled from the spec: the role of our node on an exchange
(`Role` in `exchange.rs`). -/
inductive Role where
  | Initiator
  | Responder
  deriving DecidableEq, Repr

/-- Modelled from the spec: `Role::complementary(is_initiator)` — our role is
the complement of the packet's initiator bit. -/
def Role.complementary (is_initiator : Bool) : Role :=
  if is_initiator then Role.Responder else Role.Initiator

/-- Modelled from the spec: `GeneralCode` of a Matter status report
(`status_report.rs`); only the two codes emitted by the core are modelled. -/
inductive GeneralCode where
  | Success
  | Busy
  deriving DecidableEq, Repr

/-- Payload of a packet: either an abstracted application payload or a
formatted status report `(GeneralCode, status-code)`. -/
inductive Payload where
  | raw (bytes : Nat)
  | status (general_code : GeneralCode) (code : Nat)
  deriving DecidableEq, Repr

/-- A decoded Matter message.  Wire-format decoding (`plain_hdr_decode`,
proto header parsing) is abstracted: packets in the model are already
structured.  Fields mirror the accessors the transport core uses:
`get_proto_id`, `proto.proto_opcode`, `proto.is_ack()`, `proto.is_initiator()`,
`is_reliable()`, the session id of the plain header, the exchange number of
the proto header, the MRP message counter and the peer address. -/
structure Packet where
  protoId : Nat
  protoOpcode : Nat
  ackFlag : Bool
  initiatorFlag : Bool
  reliable : Bool
  sessionId : Nat
  exchId : Nat
  counter : Nat
  peer : Nat
  payload : Payload
  deriving DecidableEq, Repr

def PROTO_ID_SECURE_CHANNEL : Nat := 0x00

def PROTO_ID_INTERACTION_MODEL : Nat := 0x01

namespace OpCode

/-- Secure Channel opcode `MRPStandAloneAck`. -/
def MRPStandAloneAck : Nat := 0x10

/-- Secure Channel opcode `StatusReport`. -/
def StatusReport : Nat := 0x40

end OpCode

namespace SCStatusCodes

/-- Modelled from the spec: Secure Channel status code `CloseSession`. -/
def CloseSession : Nat := 3

/-- Modelled from the spec: Secure Channel status code `Busy`. -/
def Busy : Nat := 4

end SCStatusCodes

namespace IMStatusCode

/-- Modelled from the spec: Interaction Model status code `Busy`. -/
def Busy : Nat := 0x9c

end IMStatusCode

/-- Modelled from the spec: `ExchangeId` — identifies one logical
conversation by exchange number and session id (`ExchangeId::load(rx)` reads
both from the packet).  The initiator distinction of §3 of the spec is
carried by the separate `Role` field of the exchange context, which
`register` compares on its own. -/
structure ExchangeId where
  id : Nat
  sessionId : Nat
  deriving DecidableEq, Repr

/-- `ExchangeId::load(rx)`. -/
def ExchangeId.load (rx : Packet) : ExchangeId :=
  { id := rx.exchId, sessionId := rx.sessionId }

/-- `SessionId::load(rx)` — the session id of the packet's plain header. -/
def SessionId.load (rx : Packet) : Nat := rx.sessionId

/-- Modelled from the spec: the per-exchange MRP engine (`ReliableMessage`,
`mrp.rs`).  `lastRecvCounter` is the dedup window (the last message counter
processed on the exchange); `ackReady` is the value `is_ack_ready(now)`
reports at the current instant (retransmission timing is abstracted). -/
structure ReliableMessage where
  lastRecvCounter : Option Nat
  ackReady : Bool
  deriving DecidableEq, Repr

/-- `ReliableMessage::new()`. -/
def ReliableMessage.new : ReliableMessage :=
  { lastRecvCounter := none, ackReady := false }

/-- Modelled from the spec: `ReliableMessage::recv` — duplicate suppression:
a message counter already processed on this exchange yields `Duplicate`,
otherwise the counter is recorded. -/
def ReliableMessage.recv (mrp : ReliableMessage) (rx : Packet) :
    Except ErrorCode ReliableMessage :=
  if mrp.lastRecvCounter = some rx.counter then Except.error ErrorCode.Duplicate
  else Except.ok { mrp with lastRecvCounter := some rx.counter }

/-- `ReliableMessage::is_ack_ready(now)` at the current instant. -/
def ReliableMessage.is_ack_ready (mrp : ReliableMessage) : Bool := mrp.ackReady

/-- The per-exchange state machine (`ExchangeState`, `exchange.rs`, as the
spec's §3 describes it).  Raw pointers into handler stacks (`rx`, `tx`,
`notification`) are modelled as the queued TX `Packet` value, a `Nat` handle
for the handler's RX buffer slot, and a `Nat` handle for the handler's
notification. -/
inductive ExchangeState where
  | Active
  | Construction (rx : Nat) (notify : Nat)
  | ExchangeRecv (tx : Packet) (tx_acknowledged : Bool) (rx : Nat) (notify : Nat)
  | ExchangeSend (tx : Packet) (rx : Nat) (notify : Nat)
  | Acknowledge (notify : Nat)
  | Complete (tx : Packet) (notify : Nat)
  | CompleteAcknowledge (tx : Packet) (notify : Nat)
  | Closed
  deriving DecidableEq, Repr

/-- `ExchangeCtx` (`exchange.rs`, as the spec's §3 describes it). -/
structure ExchangeCtx where
  id : ExchangeId
  role : Role
  mrp : ReliableMessage
  state : ExchangeState
  deriving DecidableEq, Repr

instance : Inhabited ExchangeCtx :=
  ⟨{ id := { id := 0, sessionId := 0 }, role := Role.Initiator,
     mrp := ReliableMessage.new, state := ExchangeState.Closed }⟩

/-- `MAX_EXCHANGES` (`exchange.rs`).  Modelled from the spec: the capacity of
the exchange table, a compile-time constant; its concrete value is fixed for
the model. -/
def MAX_EXCHANGES : Nat := 8

/-- First index in a list satisfying a predicate — the meaning of the
source's `iter().enumerate().find_map(..)` scans. -/
def firstIdx? {α : Type} (p : α → Bool) : List α → Option Nat
  | [] => none
  | a :: as => if p a then some 0 else (firstIdx? p as).map (fun n => n + 1)

/-- `Matter::register` (`core.rs` lines 745-781).  Looks the incoming id up
in the table; a hit with matching role is returned, a hit with a differing
role is `NoExchange`; a miss creates a new `Active` exchange when
`create_new` holds and the `heapless::Vec` has room (`push` fails exactly
when the table already holds `MAX_EXCHANGES` entries), else errors.  The
returned list is the table after the call (unchanged on error), mirroring
the `&mut` parameter of the source. -/
def register (exchanges : List ExchangeCtx) (id : ExchangeId) (role : Role)
    (create_new : Bool) : List ExchangeCtx × Except ErrorCode (Nat × Bool) :=
  match firstIdx? (fun e => decide (e.id = id)) exchanges with
  | some exchange_index =>
      if (exchanges.getD exchange_index default).role = role then
        (exchanges, Except.ok (exchange_index, false))
      else
        (exchanges, Except.error ErrorCode.NoExchange)
  | none =>
      if create_new then
        if exchanges.length < MAX_EXCHANGES then
          (exchanges ++ [{ id := id, role := role, mrp := ReliableMessage.new,
                           state := ExchangeState.Active }],
           Except.ok (exchanges.length, true))
        else
          (exchanges, Except.error ErrorCode.NoSpaceExchanges)
      else
        (exchanges, Except.error ErrorCode.NoExchange)

/-- Modelled from the spec: a cryptographic session (`session.rs`); only its
id and whether the manager's policy may evict it are relevant here. -/
structure Session where
  id : Nat
  evictable : Bool
  deriving DecidableEq, Repr

instance : Inhabited Session := ⟨{ id := 0, evictable := false }⟩

/-- Modelled from the spec: the session manager (`session.rs`).  `sessions`
is kept in activity order (least recently active first, abstracting the LRU
bookkeeping); `maxSessions` is the session bound of invariant 1 of §3. -/
structure SessionMgr where
  sessions : List Session
  maxSessions : Nat
  deriving DecidableEq, Repr

/-- Modelled from the spec: `SessionMgr::post_recv` — a packet addressed to a
known session resolves to it; an unknown session is created only when the
peer is the initiator (otherwise `NoExchange`, §4.2), and creation fails with
`NoSpaceSessions` when the table is at its bound.  Decryption
(`session.recv`) is out of scope (§1) and abstracted as succeeding. -/
def SessionMgr.post_recv (mgr : SessionMgr) (rx : Packet) :
    Except ErrorCode (SessionMgr × Nat) :=
  match firstIdx? (fun sess => decide (sess.id = rx.sessionId)) mgr.sessions with
  | some sess_index => Except.ok (mgr, sess_index)
  | none =>
      if rx.initiatorFlag then
        if mgr.sessions.length < mgr.maxSessions then
          Except.ok
            ({ mgr with
                sessions := mgr.sessions ++ [{ id := rx.sessionId, evictable := true }] },
             mgr.sessions.length)
        else
          Except.error ErrorCode.NoSpaceSessions
      else
        Except.error ErrorCode.NoExchange

/-- Modelled from the spec: `SessionMgr::get_session_for_eviction` — the
least-recently-active evictable session, `none` when no candidate exists. -/
def SessionMgr.get_session_for_eviction (mgr : SessionMgr) : Option Nat :=
  firstIdx? (fun sess => sess.evictable) mgr.sessions

/-- Modelled from the spec: `SessionMgr::remove`. -/
def SessionMgr.remove (mgr : SessionMgr) (sess_index : Nat) : SessionMgr :=
  { mgr with sessions := mgr.sessions.eraseIdx sess_index }

/-- Observable side effects of the transport operations: signalling the
global send notification, signalling a handler's per-exchange notification,
delivering an RX payload into a handler's buffer slot, completing an
ephemeral (out-of-band) transmission, and `notify_changed` (the subscription
change marker). -/
inductive Effect where
  | signalSend
  | signalHandler (notify : Nat)
  | rxDelivered (rx : Nat) (p : Packet)
  | sentEphemeral (id : ExchangeId) (tx : Packet)
  | notifyChanged
  deriving DecidableEq, Repr

/-- The mutable transport state of the `Matter` object: the exchange table
(`heapless::Vec<ExchangeCtx, MAX_EXCHANGES>`), the session manager and the
ephemeral exchange slot. -/
structure TransportState where
  exchanges : List ExchangeCtx
  sessionMgr : SessionMgr
  ephemeral : Option ExchangeCtx
  deriving DecidableEq, Repr

/-- Modelled from the spec: `create_status_report` (`status_report.rs`) —
formats a status report with the given `(GeneralCode, proto-id, status-code)`
triple into a TX packet; the transport addressing fields are stamped later by
`prep_ephemeral`. -/
def create_status_report (general_code : GeneralCode) (proto_id : Nat)
    (code : Nat) : Packet :=
  { protoId := proto_id, protoOpcode := OpCode.StatusReport, ackFlag := false,
    initiatorFlag := false, reliable := false, sessionId := 0, exchId := 0,
    counter := 0, peer := 0, payload := Payload.status general_code code }

/-- Modelled from the spec: `ExchangeCtx::prep_ephemeral` — a one-shot
out-of-band exchange context bound to the given session. -/
def ExchangeCtx.prep_ephemeral (session_id : Nat) : ExchangeCtx :=
  { id := { id := 0, sessionId := session_id }, role := Role.Responder,
    mrp := ReliableMessage.new, state := ExchangeState.Active }

/-- `Matter::send_ephemeral` (`core.rs` lines 692-713), modelled to its
completion: the context is installed in the ephemeral slot with state
`Complete { tx, notification }`, the send notification is signalled, and the
caller suspends until the TX pump drains the slot and the slot is cleared
again.  The net state change of the completed call is the cleared slot; the
transmission itself is recorded as a `sentEphemeral` effect. -/
def send_ephemeral (s : TransportState) (ctx : ExchangeCtx) (tx : Packet) :
    Except ErrorCode (TransportState × List Effect) :=
  Except.ok ({ s with ephemeral := none },
             [Effect.signalSend, Effect.sentEphemeral ctx.id tx])

/-- `Matter::evict_session` (`core.rs` lines 638-665): ask the session
manager for an eviction candidate; if one exists, format a Secure Channel
`CloseSession` status report for its peer, prepare an ephemeral context bound
to it, remove the session and send ephemerally; otherwise fail with
`NoSpaceSessions`. -/
def evict_session (s : TransportState) :
    Except ErrorCode (TransportState × List Effect) :=
  match s.sessionMgr.get_session_for_eviction with
  | some sess_index =>
      let tx := create_status_report GeneralCode.Success PROTO_ID_SECURE_CHANNEL
        SCStatusCodes.CloseSession
      let session_id := (s.sessionMgr.sessions.getD sess_index default).id
      let ctx := ExchangeCtx.prep_ephemeral session_id
      let s1 := { s with sessionMgr := s.sessionMgr.remove sess_index }
      send_ephemeral s1 ctx { tx with sessionId := session_id }
  | none => Except.error ErrorCode.NoSpaceSessions

/-- `Matter::send_busy` (`core.rs` lines 667-690): format a `Busy` status
report on the inbound packet's proto-id — Secure Channel `Busy` for SC,
Interaction Model `Busy` otherwise — and send it ephemerally, addressed to
the inbound peer via `SessionId::load(rx)`. -/
def send_busy (s : TransportState) (rx : Packet) :
    Except ErrorCode (TransportState × List Effect) :=
  let tx := create_status_report GeneralCode.Busy rx.protoId
    (if rx.protoId = PROTO_ID_SECURE_CHANNEL then SCStatusCodes.Busy
     else IMStatusCode.Busy)
  let ctx := ExchangeCtx.prep_ephemeral (SessionId.load rx)
  send_ephemeral s ctx
    { tx with sessionId := SessionId.load rx, peer := rx.peer }

/-- `Matter::assign_exchange` (`core.rs` lines 715-743): resolve (or create)
the session via `post_recv`, decrypt (abstracted), register the exchange by
`ExchangeId::load(rx)` with the role complementary to the packet's initiator
bit — creating a new exchange only when the peer is the initiator — and run
the MRP receive step on the assigned exchange.  The returned state carries
the mutations performed before a failure, mirroring the `&mut` borrows of
the source. -/
def assign_exchange (s : TransportState) (rx : Packet) :
    TransportState × Except ErrorCode (Nat × Bool) :=
  match s.sessionMgr.post_recv rx with
  | Except.error e => (s, Except.error e)
  | Except.ok (mgr, _sess_index) =>
      let s1 := { s with sessionMgr := mgr }
      match register s1.exchanges (ExchangeId.load rx)
          (Role.complementary rx.initiatorFlag) rx.initiatorFlag with
      | (exchanges, Except.error e) =>
          ({ s1 with exchanges := exchanges }, Except.error e)
      | (exchanges, Except.ok (exchange_index, new)) =>
          let s2 := { s1 with exchanges := exchanges }
          match (s2.exchanges.getD exchange_index default).mrp.recv rx with
          | Except.error e => (s2, Except.error e)
          | Except.ok mrp =>
              ({ s2 with
                 exchanges := s2.exchanges.set exchange_index
                   { s2.exchanges.getD exchange_index default with mrp := mrp } },
               Except.ok (exchange_index, new))

/-- `heapless::Vec::swap_remove(index)`: the element at `index` is replaced
by the last element and the last element is popped. -/
def swapRemove (xs : List ExchangeCtx) (i : Nat) : List ExchangeCtx :=
  match xs.getLast? with
  | none => xs
  | some last => (xs.set i last).dropLast

/-- One sweep bound of `Matter::purge` (`core.rs` lines 622-636): repeatedly
find the first exchange whose state is `Closed` and `swap_remove` it, until
none is left.  Each iteration removes one element, so `xs.length` iterations
always suffice; the fuel argument makes the source's unbounded `loop`
structurally recursive. -/
def purgeFuel : Nat → List ExchangeCtx → List ExchangeCtx
  | 0, xs => xs
  | fuel + 1, xs =>
      match firstIdx? (fun ctx => decide (ctx.state = ExchangeState.Closed)) xs with
      | some i => purgeFuel fuel (swapRemove xs i)
      | none => xs

/-- `Matter::purge`. -/
def purge (xs : List ExchangeCtx) : List ExchangeCtx :=
  purgeFuel xs.length xs

/-- Outcome of the `assign_exchange` retry loop of `process_rx` (`core.rs`
lines 385-404): either the packet was dropped (`Ok(None)` paths: `Duplicate`
or `NoSpaceExchanges`/Busy), or an exchange was assigned. -/
inductive RxLoopOut where
  | dropped (s : TransportState) (effs : List Effect)
  | assigned (s : TransportState) (effs : List Effect) (exchange_index : Nat) (new : Bool)
  deriving DecidableEq, Repr

/-- The `loop` of `process_rx` (`core.rs` lines 385-404): attempt
`assign_exchange`; on `Duplicate` signal the send notification and drop; on
`NoSpaceSessions` run `evict_session` (whose own failure propagates, the
source's `await?`) and retry; on `NoSpaceExchanges` send Busy and drop; other
errors propagate.  Each retry follows a successful eviction, which removes a
session, so `sessions.length + 1` iterations always suffice; the fuel
argument makes the unbounded `loop` structurally recursive
(`rx_assign_loop_fuel_irrelevant` below shows the result does not depend on
the fuel, provided it exceeds the session count). -/
def rx_assign_loop : Nat → TransportState → Packet → List Effect →
    Except ErrorCode RxLoopOut
  | 0, _, _, _ => Except.error ErrorCode.NoSpaceSessions
  | fuel + 1, s, rx, effs =>
      match assign_exchange s rx with
      | (s1, Except.ok (exchange_index, new)) =>
          Except.ok (RxLoopOut.assigned s1 effs exchange_index new)
      | (s1, Except.error ErrorCode.Duplicate) =>
          Except.ok (RxLoopOut.dropped s1 (effs ++ [Effect.signalSend]))
      | (s1, Except.error ErrorCode.NoSpaceSessions) =>
          (match evict_session s1 with
           | Except.error e => Except.error e
           | Except.ok (s2, effs2) => rx_assign_loop fuel s2 rx (effs ++ effs2))
      | (s1, Except.error ErrorCode.NoSpaceExchanges) =>
          (match send_busy s1 rx with
           | Except.error e => Except.error e
           | Except.ok (s2, effs2) => Except.ok (RxLoopOut.dropped s2 (effs ++ effs2)))
      | (_, Except.error e) => Except.error e

/-- Step 4 of `process_rx` (`core.rs` lines 411-435): ack handling.  An ack
on a brand-new exchange is `Invalid`; on `ExchangeRecv` the `tx_acknowledged`
flag is set; on `CompleteAcknowledge` the handler is signalled and the state
becomes `Closed`; every other state is a `todo!()` of the source. -/
def rx_ack_phase (s : TransportState) (rx : Packet) (exchange_index : Nat)
    (new : Bool) : Except ErrorCode (TransportState × List Effect) :=
  if rx.ackFlag then
    if new then Except.error ErrorCode.Invalid
    else
      let ctx := s.exchanges.getD exchange_index default
      match ctx.state with
      | ExchangeState.ExchangeRecv tx _tx_acknowledged rxslot notify =>
          let ctx1 := { ctx with
            state := ExchangeState.ExchangeRecv tx true rxslot notify }
          Except.ok
            ({ s with exchanges := s.exchanges.set exchange_index ctx1 },
             [Effect.notifyChanged])
      | ExchangeState.CompleteAcknowledge _tx notify =>
          let ctx1 := { ctx with state := ExchangeState.Closed }
          Except.ok
            ({ s with exchanges := s.exchanges.set exchange_index ctx1 },
             [Effect.signalHandler notify, Effect.notifyChanged])
      | _ => Except.error ErrorCode.Todo
  else Except.ok (s, [])

/-- Steps 5-7 of `process_rx` (`core.rs` lines 437-479): a newly created
exchange yields its constructor (modelled by the exchange id); an MRP
standalone ack on the Secure Channel proto does nothing more; otherwise the
payload is routed — the state must be `ExchangeRecv`: the payload is copied
into the handler's RX slot, the handler is signalled and the state becomes
`Active`; every other state is a `todo!()` of the source. -/
def rx_route_phase (s : TransportState) (rx : Packet) (exchange_index : Nat)
    (new : Bool) : Except ErrorCode (TransportState × List Effect × Option ExchangeId) :=
  if new then
    Except.ok (s, [Effect.notifyChanged],
               some (s.exchanges.getD exchange_index default).id)
  else if rx.protoId = PROTO_ID_SECURE_CHANNEL
      ∧ rx.protoOpcode = OpCode.MRPStandAloneAck then
    Except.ok (s, [], none)
  else
    let ctx := s.exchanges.getD exchange_index default
    match ctx.state with
    | ExchangeState.ExchangeRecv _tx _tx_acknowledged rxslot notify =>
        let ctx1 := { ctx with state := ExchangeState.Active }
        Except.ok
          ({ s with exchanges := s.exchanges.set exchange_index ctx1 },
           [Effect.rxDelivered rxslot rx, Effect.signalHandler notify,
            Effect.notifyChanged], none)
    | _ => Except.error ErrorCode.Todo

/-- `Matter::process_rx` (`core.rs` lines 375-480): decode the plain header
(abstracted), purge closed exchanges, run the `assign_exchange` retry loop,
then the ack phase and the routing phase.  `Ok none` is a dropped packet,
`Ok (some id)` is the constructor of a freshly created exchange. -/
def process_rx (s : TransportState) (rx : Packet) :
    Except ErrorCode (TransportState × List Effect × Option ExchangeId) :=
  let s0 := { s with exchanges := purge s.exchanges }
  match rx_assign_loop (s0.sessionMgr.sessions.length + 1) s0 rx [] with
  | Except.error e => Except.error e
  | Except.ok (RxLoopOut.dropped s1 effs) => Except.ok (s1, effs, none)
  | Except.ok (RxLoopOut.assigned s1 effs exchange_index new) =>
      match rx_ack_phase s1 rx exchange_index new with
      | Except.error e => Except.error e
      | Except.ok (s2, effs2) =>
          match rx_route_phase s2 rx exchange_index new with
          | Except.error e => Except.error e
          | Except.ok (s3, effs3, ctr) =>
              Except.ok (s3, effs ++ effs2 ++ effs3, ctr)

/-- One iteration of the body of `Matter::handle_rx_multiplex` (`core.rs`
lines 253-287) after a datagram has been received: `process_rx` is awaited
with `?`, so any error it returns propagates out of the receive loop (the
channel/construction handshake of a new exchange is a cross-task interaction
outside this sequential model). -/
def handle_rx_multiplex_step (s : TransportState) (rx : Packet) :
    Except ErrorCode (TransportState × List Effect) :=
  match process_rx s rx with
  | Except.error e => Except.error e
  | Except.ok (s1, effs, _ctr) => Except.ok (s1, effs)

/-- Content of the outbound packet produced by the TX pump: either an MRP
standalone ack carrying the exchange number
(`ReliableMessage::prepare_ack(ctx.id.id, dest_tx)`) or a copy of a queued
TX packet (`dest_tx.load(tx)`). -/
inductive TxContent where
  | ack (exchId : Nat)
  | msg (p : Packet)
  deriving DecidableEq, Repr

/-- The selection predicate of `pull_tx_exchanges` (`core.rs` lines 537-548):
state ∈ {`Acknowledge`, `ExchangeSend`, `Complete`} (the `ExchangeRecv` and
`CompleteAcknowledge` alternatives are commented out in the source) or the
MRP engine reports `is_ack_ready` at the current instant. -/
def pull_tx_selects (ctx : ExchangeCtx) : Bool :=
  (match ctx.state with
   | ExchangeState.Acknowledge _ => true
   | ExchangeState.ExchangeSend _ _ _ => true
   | ExchangeState.Complete _ _ => true
   | _ => false) || ctx.mrp.is_ack_ready

/-- Servicing of the selected exchange by `pull_tx_exchanges` (`core.rs`
lines 553-609): `Acknowledge` emits a standalone ack, signals the handler and
returns to `Active`; `ExchangeSend` copies the queued TX and transitions to
`ExchangeRecv { tx_acknowledged: false, .. }`; `Complete` copies the queued
TX, then transitions to `CompleteAcknowledge` when the outbound packet is
reliable, else signals the handler and closes; any other state (selected via
`is_ack_ready`) emits a standalone ack.  Every arm reports `send = true`. -/
def pull_tx_serve (ctx : ExchangeCtx) : ExchangeCtx × TxContent × List Effect :=
  match ctx.state with
  | ExchangeState.Acknowledge notify =>
      ({ ctx with state := ExchangeState.Active }, TxContent.ack ctx.id.id,
       [Effect.signalHandler notify])
  | ExchangeState.ExchangeSend tx rxslot notify =>
      ({ ctx with state := ExchangeState.ExchangeRecv tx false rxslot notify },
       TxContent.msg tx, [])
  | ExchangeState.Complete tx notify =>
      if tx.reliable then
        ({ ctx with state := ExchangeState.CompleteAcknowledge tx notify },
         TxContent.msg tx, [])
      else
        ({ ctx with state := ExchangeState.Closed }, TxContent.msg tx,
         [Effect.signalHandler notify])
  | _ => (ctx, TxContent.ack ctx.id.id, [])

/-- Result of `pull_tx_exchanges`: the updated contexts, the outbound packet
content when one was produced, the effects, and the returned `bool`. -/
structure PullExchangesResult where
  ctxs : List ExchangeCtx
  content : Option TxContent
  effects : List Effect
  sent : Bool
  deriving DecidableEq, Repr

/-- `Matter::pull_tx_exchanges` (`core.rs` lines 529-620): find the first
context satisfying the selection predicate; when none exists return `false`;
otherwise service it (`notify_changed` is raised on selection and again once
the packet is ready) and return `true`. -/
def pull_tx_exchanges (ctxs : List ExchangeCtx) : PullExchangesResult :=
  match firstIdx? pull_tx_selects ctxs with
  | none => { ctxs := ctxs, content := none, effects := [], sent := false }
  | some i =>
      let ctx := ctxs.getD i default
      let served := pull_tx_serve ctx
      { ctxs := ctxs.set i served.1, content := some served.2.1,
        effects := [Effect.notifyChanged] ++ served.2.2 ++ [Effect.notifyChanged],
        sent := true }

/-- Result of `pull_tx`: the updated transport state plus the
`pull_tx_exchanges` outcome. -/
structure PullTxResult where
  state : TransportState
  content : Option TxContent
  effects : List Effect
  sent : Bool
  deriving DecidableEq, Repr

/-- `Matter::pull_tx` (`core.rs` lines 520-527): purge closed exchanges, then
scan the ephemeral slot chained before the regular exchange table
(`ephemeral.iter_mut().chain(exchanges.iter_mut())`). -/
def pull_tx (s : TransportState) : PullTxResult :=
  let exchanges := purge s.exchanges
  let chained := s.ephemeral.toList ++ exchanges
  let r := pull_tx_exchanges chained
  match s.ephemeral with
  | some _ =>
      { state := { s with ephemeral := r.ctxs.head?, exchanges := r.ctxs.tail },
        content := r.content, effects := r.effects, sent := r.sent }
  | none =>
      { state := { s with exchanges := r.ctxs },
        content := r.content, effects := r.effects, sent := r.sent }

/-- A sequence of `register` calls, each applied to the table the previous
call left behind (the table is unchanged when a call errors). -/
def register_seq (exchanges : List ExchangeCtx) :
    List (ExchangeId × Role × Bool) → List ExchangeCtx
  | [] => exchanges
  | c :: rest => register_seq (register exchanges c.1 c.2.1 c.2.2).1 rest

/-- Whether an `Except` result is a success. -/
def isOkE {α : Type} (r : Except ErrorCode α) : Bool :=
  match r with
  | Except.ok _ => true
  | Except.error _ => false

theorem firstIdx?_eq_none_iff {α : Type} (p : α → Bool) (xs : List α) :
    firstIdx? p xs = none ↔ ∀ x ∈ xs, p x = false := by
  induction xs with
  | nil => simp [firstIdx?]
  | cons a as ih =>
    by_cases hp : p a
    · simp [firstIdx?, hp]
    · simp [firstIdx?, hp, ih]

theorem firstIdx?_lt {α : Type} (p : α → Bool) :
    ∀ (xs : List α) (i : Nat), firstIdx? p xs = some i → i < xs.length := by
  intro xs
  induction xs with
  | nil => intro i h; simp [firstIdx?] at h
  | cons a as ih =>
    intro i h
    by_cases hp : p a
    · simp [firstIdx?, hp] at h
      simp [← h]
    · simp only [firstIdx?, hp, if_neg] at h
      rcases hm : firstIdx? p as with _ | j
      · rw [hm] at h; simp at h
      · rw [hm] at h; simp at h
        have := ih j hm
        simp [← h, List.length_cons]
        omega

theorem firstIdx?_getD {α : Type} (p : α → Bool) :
    ∀ (xs : List α) (i : Nat) (d : α), firstIdx? p xs = some i →
      p (xs.getD i d) = true := by
  intro xs
  induction xs with
  | nil => intro i d h; simp [firstIdx?] at h
  | cons a as ih =>
    intro i d h
    by_cases hp : p a
    · simp [firstIdx?, hp] at h
      simp [← h, hp]
    · simp only [firstIdx?, hp, if_neg] at h
      rcases hm : firstIdx? p as with _ | j
      · rw [hm] at h; simp at h
      · rw [hm] at h; simp at h
        rw [← h]
        simpa using ih j d hm

theorem firstIdx?_min {α : Type} (p : α → Bool) :
    ∀ (xs : List α) (i : Nat) (d : α), firstIdx? p xs = some i →
      ∀ j, j < i → p (xs.getD j d) = false := by
  intro xs
  induction xs with
  | nil => intro i d h; simp [firstIdx?] at h
  | cons a as ih =>
    intro i d h j hj
    by_cases hp : p a
    · simp [firstIdx?, hp] at h
      omega
    · simp only [firstIdx?, hp, if_neg] at h
      rcases hm : firstIdx? p as with _ | k
      · rw [hm] at h; simp at h
      · rw [hm] at h; simp at h
        cases j with
        | zero => simpa using hp
        | succ j1 =>
            simp only [List.getD_cons_succ]
            exact ih k d hm j1 (by omega)

theorem getD_mem {α : Type} :
    ∀ (xs : List α) (i : Nat) (d : α), i < xs.length → xs.getD i d ∈ xs := by
  intro xs
  induction xs with
  | nil => intro i d h; simp at h
  | cons a as ih =>
    intro i d h
    cases i with
    | zero => simp
    | succ i1 =>
        simp only [List.getD_cons_succ]
        exact List.mem_cons_of_mem a (ih i1 d (by simpa using h))

theorem getD_set_self {α : Type} :
    ∀ (xs : List α) (i : Nat) (a d : α), i < xs.length →
      (xs.set i a).getD i d = a := by
  intro xs
  induction xs with
  | nil => intro i a d h; simp at h
  | cons x as ih =>
    intro i a d h
    cases i with
    | zero => simp
    | succ i1 =>
        simp only [List.set_cons_succ, List.getD_cons_succ]
        exact ih i1 a d (by simpa using h)

theorem getD_append_length {α : Type} :
    ∀ (xs : List α) (a d : α), (xs ++ [a]).getD xs.length d = a := by
  intro xs
  induction xs with
  | nil => intro a d; simp
  | cons x as ih =>
    intro a d
    simp [ih a d]

theorem swapRemove_length (xs : List ExchangeCtx) (i : Nat) (h : xs ≠ []) :
    (swapRemove xs i).length = xs.length - 1 := by
  unfold swapRemove
  rcases hl : xs.getLast? with _ | last
  · exact absurd (List.getLast?_eq_none_iff.mp hl) h
  · simp [List.length_dropLast, List.length_set]

theorem mem_swapRemove (xs : List ExchangeCtx) (i : Nat) :
    ∀ ctx ∈ swapRemove xs i, ctx ∈ xs := by
  intro ctx hmem
  unfold swapRemove at hmem
  rcases hl : xs.getLast? with _ | last
  · rw [hl] at hmem; exact hmem
  · rw [hl] at hmem
    have h1 : ctx ∈ xs.set i last := List.mem_of_mem_dropLast hmem
    rcases List.mem_or_eq_of_mem_set h1 with h2 | h2
    · exact h2
    · subst h2
      have h3 : ctx ∈ xs.getLast? := by rw [hl]; rfl
      rcases List.mem_getLast?_eq_getLast h3 with ⟨hne, heq⟩
      rw [heq]
      exact List.getLast_mem hne

theorem purgeFuel_no_closed :
    ∀ (fuel : Nat) (xs : List ExchangeCtx), xs.length ≤ fuel →
      ∀ ctx ∈ purgeFuel fuel xs, ctx.state ≠ ExchangeState.Closed := by
  intro fuel
  induction fuel with
  | zero =>
    intro xs hlen ctx hmem
    have : xs = [] := List.length_eq_zero.mp (Nat.le_zero.mp hlen)
    subst this
    simp [purgeFuel] at hmem
  | succ f ih =>
    intro xs hlen ctx hmem
    rcases hf : firstIdx? (fun ctx => decide (ctx.state = ExchangeState.Closed)) xs
        with _ | i
    · rw [purgeFuel, hf] at hmem
      have hall := (firstIdx?_eq_none_iff _ xs).mp hf ctx hmem
      simpa using hall
    · rw [purgeFuel, hf] at hmem
      have hne : xs ≠ [] := by
        intro hnil
        subst hnil
        simp [firstIdx?] at hf
      have hlen1 : (swapRemove xs i).length ≤ f := by
        rw [swapRemove_length xs i hne]
        have : 1 ≤ xs.length := by
          cases xs with
          | nil => exact absurd rfl hne
          | cons a as => simp
        omega
      exact ih (swapRemove xs i) hlen1 ctx hmem

theorem purge_no_closed (xs : List ExchangeCtx) :
    ∀ ctx ∈ purge xs, ctx.state ≠ ExchangeState.Closed :=
  purgeFuel_no_closed xs.length xs (Nat.le_refl _)

theorem purgeFuel_of_no_closed (fuel : Nat) (xs : List ExchangeCtx)
    (h : ∀ ctx ∈ xs, ctx.state ≠ ExchangeState.Closed) :
    purgeFuel fuel xs = xs := by
  cases fuel with
  | zero => rfl
  | succ f =>
    have hnone : firstIdx? (fun ctx => decide (ctx.state = ExchangeState.Closed)) xs
        = none := by
      rw [firstIdx?_eq_none_iff]
      intro x hx
      simpa using h x hx
    rw [purgeFuel, hnone]

theorem purge_idem (xs : List ExchangeCtx) : purge (purge xs) = purge xs := by
  unfold purge
  exact purgeFuel_of_no_closed _ _ (purge_no_closed xs)

theorem register_error_cases (exchanges : List ExchangeCtx) (id : ExchangeId)
    (role : Role) (create_new : Bool) (l : List ExchangeCtx) (e : ErrorCode)
    (h : register exchanges id role create_new = (l, Except.error e)) :
    l = exchanges ∧ (e = ErrorCode.NoExchange ∨ e = ErrorCode.NoSpaceExchanges) := by
  unfold register at h
  split at h
  · split at h
    · simp at h
    · simp at h
      exact ⟨h.1.symm, Or.inl h.2.symm⟩
  · split at h
    · split at h
      · simp at h
      · simp at h
        exact ⟨h.1.symm, Or.inr h.2.symm⟩
    · simp at h
      exact ⟨h.1.symm, Or.inl h.2.symm⟩

theorem register_ok_cases (exchanges : List ExchangeCtx) (id : ExchangeId)
    (role : Role) (create_new : Bool) (l : List ExchangeCtx) (i : Nat) (new : Bool)
    (h : register exchanges id role create_new = (l, Except.ok (i, new))) :
    (new = false ∧ l = exchanges
      ∧ firstIdx? (fun e => decide (e.id = id)) exchanges = some i)
    ∨ (new = true
      ∧ l = exchanges ++ [{ id := id, role := role, mrp := ReliableMessage.new,
                            state := ExchangeState.Active }]
      ∧ i = exchanges.length) := by
  unfold register at h
  split at h
  case _ j hj =>
    split at h
    · simp at h
      refine Or.inl ⟨h.2.2, h.1.symm, ?_⟩
      rw [hj, h.2.1]
    · simp at h
  · split at h
    · split at h
      · simp at h
        exact Or.inr ⟨h.2.2, h.1.symm, h.2.1.symm⟩
      · simp at h
    · simp at h

theorem post_recv_error_cases (mgr : SessionMgr) (rx : Packet) (e : ErrorCode)
    (h : mgr.post_recv rx = Except.error e) :
    e = ErrorCode.NoSpaceSessions ∨ e = ErrorCode.NoExchange := by
  unfold SessionMgr.post_recv at h
  split at h
  · simp at h
  · split at h
    · split at h
      · simp at h
      · simp at h
        exact Or.inl h.symm
    · simp at h
      exact Or.inr h.symm

theorem mrp_recv_error (mrp : ReliableMessage) (rx : Packet) (e : ErrorCode)
    (h : mrp.recv rx = Except.error e) : e = ErrorCode.Duplicate := by
  unfold ReliableMessage.recv at h
  split at h
  · simp at h
    exact h.symm
  · simp at h

theorem mrp_recv_new_ok (rx : Packet) :
    ReliableMessage.new.recv rx
      = Except.ok { lastRecvCounter := some rx.counter, ackReady := false } := by
  simp [ReliableMessage.recv, ReliableMessage.new]

theorem assign_exchange_error_cases (s : TransportState) (rx : Packet)
    (s1 : TransportState) (e : ErrorCode)
    (h : assign_exchange s rx = (s1, Except.error e)) :
    (e = ErrorCode.NoSpaceSessions → s1 = s)
    ∧ (e = ErrorCode.Duplicate → s1.exchanges = s.exchanges)
    ∧ (e = ErrorCode.NoSpaceExchanges → s1.exchanges = s.exchanges) := by
  simp only [assign_exchange] at h
  split at h
  · -- post_recv errored: the state is returned unchanged
    simp at h
    rcases h with ⟨hs, _⟩
    subst hs
    exact ⟨fun _ => rfl, fun _ => rfl, fun _ => rfl⟩
  case _ mgr _sess heq =>
    split at h
    case _ exchanges e2 heq2 =>
      -- register errored: the table is returned unchanged
      rcases register_error_cases _ _ _ _ _ _ heq2 with ⟨hl, hor⟩
      simp at h
      rcases h with ⟨hs, he⟩
      refine ⟨?_, ?_, ?_⟩
      · intro hss
        rcases hor with h1 | h1 <;> simp [h1, hss] at he
      · intro hss
        rcases hor with h1 | h1 <;> simp [h1, hss] at he
      · intro _
        rw [← hs, hl]
    case _ exchanges exchange_index new heq2 =>
      split at h
      case _ e3 heq3 =>
        -- the MRP receive step errored: only `Duplicate` is possible, and only
        -- on an existing exchange (a fresh MRP never reports a duplicate)
        have he3 := mrp_recv_error _ _ _ heq3
        subst he3
        simp at h
        rcases h with ⟨hs, he⟩
        rcases register_ok_cases _ _ _ _ _ _ _ heq2 with hold | hnew
        · rcases hold with ⟨_, hl, _⟩
          refine ⟨?_, ?_, ?_⟩
          · intro hss; subst hss; simp at he
          · intro _; rw [← hs, hl]
          · intro hss; subst hss; simp at he
        · rcases hnew with ⟨_, hl, hi⟩
          exfalso
          rw [hl, hi] at heq3
          rw [getD_append_length] at heq3
          simp [mrp_recv_new_ok] at heq3
      · simp at h

theorem evict_session_ok_sessions (s : TransportState) (s2 : TransportState)
    (effs : List Effect) (h : evict_session s = Except.ok (s2, effs)) :
    s2.sessionMgr.sessions.length + 1 = s.sessionMgr.sessions.length := by
  unfold evict_session at h
  rcases hc : s.sessionMgr.get_session_for_eviction with _ | i
  · rw [hc] at h; simp at h
  · rw [hc] at h
    simp only [SessionMgr.get_session_for_eviction] at hc
    have hi : i < s.sessionMgr.sessions.length := firstIdx?_lt _ _ _ hc
    simp [send_ephemeral] at h
    rcases h with ⟨hs, _⟩
    rw [← hs]
    simp [SessionMgr.remove, List.length_eraseIdx_of_lt hi]
    omega

/-- The result of the `assign_exchange` retry loop does not depend on the
fuel, provided the fuel exceeds the current session count (each retry
follows an eviction, which removes a session). -/
theorem rx_assign_loop_fuel_irrelevant :
    ∀ (fuel1 fuel2 : Nat) (s : TransportState) (rx : Packet) (effs : List Effect),
      s.sessionMgr.sessions.length < fuel1 →
      s.sessionMgr.sessions.length < fuel2 →
      rx_assign_loop fuel1 s rx effs = rx_assign_loop fuel2 s rx effs := by
  intro fuel1
  induction fuel1 with
  | zero => intro fuel2 s rx effs h1 h2; omega
  | succ f1 ih =>
    intro fuel2 s rx effs h1 h2
    cases fuel2 with
    | zero => omega
    | succ f2 =>
      simp only [rx_assign_loop]
      rcases ha : assign_exchange s rx with ⟨s1, r⟩
      cases r with
      | ok v => rfl
      | error e =>
        cases e with
        | Duplicate => rfl
        | NoSpaceExchanges => rfl
        | NoExchange => rfl
        | NoSession => rfl
        | Invalid => rfl
        | Todo => rfl
        | NoSpaceSessions =>
          have hs1 : s1 = s := (assign_exchange_error_cases s rx s1 _ ha).1 rfl
          show (match evict_session s1 with
                | Except.error e => Except.error e
                | Except.ok (s2, effs2) => rx_assign_loop f1 s2 rx (effs ++ effs2))
             = (match evict_session s1 with
                | Except.error e => Except.error e
                | Except.ok (s2, effs2) => rx_assign_loop f2 s2 rx (effs ++ effs2))
          rcases he : evict_session s1 with e2 | ⟨s2, effs2⟩
          · rfl
          · have hlen := evict_session_ok_sessions s1 s2 effs2 he
            rw [hs1] at hlen
            exact ih f2 s2 rx (effs ++ effs2) (by omega) (by omega)

/-- The Busy status packet `send_busy` emits for an inbound packet. -/
def busy_status_packet (rx : Packet) : Packet :=
  { protoId := rx.protoId, protoOpcode := OpCode.StatusReport, ackFlag := false,
    initiatorFlag := false, reliable := false, sessionId := rx.sessionId,
    exchId := 0, counter := 0, peer := rx.peer,
    payload := Payload.status GeneralCode.Busy
      (if rx.protoId = PROTO_ID_SECURE_CHANNEL then SCStatusCodes.Busy
       else IMStatusCode.Busy) }

theorem send_busy_eq (s : TransportState) (rx : Packet) :
    send_busy s rx = Except.ok
      ({ s with ephemeral := none },
       [Effect.signalSend,
        Effect.sentEphemeral { id := 0, sessionId := rx.sessionId }
          (busy_status_packet rx)]) := by
  simp [send_busy, send_ephemeral, create_status_report, ExchangeCtx.prep_ephemeral,
        SessionId.load, busy_status_packet]

theorem rx_assign_loop_ok (fuel : Nat) (s : TransportState) (rx : Packet)
    (effs : List Effect) (s1 : TransportState) (exchange_index : Nat) (new : Bool)
    (h : assign_exchange s rx = (s1, Except.ok (exchange_index, new))) :
    rx_assign_loop (fuel + 1) s rx effs
      = Except.ok (RxLoopOut.assigned s1 effs exchange_index new) := by
  simp only [rx_assign_loop]
  rw [h]

theorem rx_assign_loop_duplicate (fuel : Nat) (s : TransportState) (rx : Packet)
    (effs : List Effect) (s1 : TransportState)
    (h : assign_exchange s rx = (s1, Except.error ErrorCode.Duplicate)) :
    rx_assign_loop (fuel + 1) s rx effs
      = Except.ok (RxLoopOut.dropped s1 (effs ++ [Effect.signalSend])) := by
  simp only [rx_assign_loop]
  rw [h]

theorem rx_assign_loop_no_space_exchanges (fuel : Nat) (s : TransportState)
    (rx : Packet) (effs : List Effect) (s1 : TransportState)
    (h : assign_exchange s rx = (s1, Except.error ErrorCode.NoSpaceExchanges)) :
    rx_assign_loop (fuel + 1) s rx effs
      = Except.ok (RxLoopOut.dropped ({ s1 with ephemeral := none })
          (effs ++ [Effect.signalSend,
            Effect.sentEphemeral { id := 0, sessionId := rx.sessionId }
              (busy_status_packet rx)])) := by
  simp only [rx_assign_loop]
  rw [h]
  simp [send_busy_eq]

theorem rx_assign_loop_evict_fails (fuel : Nat) (s : TransportState)
    (rx : Packet) (effs : List Effect) (s1 : TransportState)
    (h1 : assign_exchange s rx = (s1, Except.error ErrorCode.NoSpaceSessions))
    (h2 : s1.sessionMgr.get_session_for_eviction = none) :
    rx_assign_loop (fuel + 1) s rx effs
      = Except.error ErrorCode.NoSpaceSessions := by
  simp only [rx_assign_loop]
  rw [h1]
  have he : evict_session s1 = Except.error ErrorCode.NoSpaceSessions := by
    unfold evict_session
    rw [h2]
  simp [he]

/-- C9: if `register` finds an existing exchange whose `ExchangeId` equals the
incoming packet's id but whose role differs from the role derived from the
packet's initiator bit, it returns the `NoExchange` error instead of matching
that exchange or creating a new one (the table is returned unchanged). -/
theorem register_role_mismatch (exchanges : List ExchangeCtx) (id : ExchangeId)
    (role : Role) (create_new : Bool) (exchange_index : Nat)
    (h1 : firstIdx? (fun e => decide (e.id = id)) exchanges = some exchange_index)
    (h2 : (exchanges.getD exchange_index default).role ≠ role) :
    register exchanges id role create_new
      = (exchanges, Except.error ErrorCode.NoExchange) := by
  unfold register
  rw [h1]
  show (if (exchanges.getD exchange_index default).role = role
        then (exchanges, Except.ok (exchange_index, false))
        else (exchanges, Except.error ErrorCode.NoExchange))
      = (exchanges, Except.error ErrorCode.NoExchange)
  rw [if_neg h2]

theorem register_length_le (exchanges : List ExchangeCtx) (id : ExchangeId)
    (role : Role) (create_new : Bool) (h : exchanges.length ≤ MAX_EXCHANGES) :
    (register exchanges id role create_new).1.length ≤ MAX_EXCHANGES := by
  unfold register
  split
  · split
    · simpa using h
    · simpa using h
  · split
    · split
      · simp
        omega
      · simpa using h
    · simpa using h

theorem register_seq_le :
    ∀ (calls : List (ExchangeId × Role × Bool)) (exchanges : List ExchangeCtx),
      exchanges.length ≤ MAX_EXCHANGES →
      (register_seq exchanges calls).length ≤ MAX_EXCHANGES := by
  intro calls
  induction calls with
  | nil => intro xs h; simpa [register_seq] using h
  | cons c rest ih =>
    intro xs h
    exact ih _ (register_length_le xs c.1 c.2.1 c.2.2 h)

/-- C2: for every sequence of calls to `register`, the exchange table never
holds more than `MAX_EXCHANGES` entries; and when the table is full and a new
exchange would be created (no entry matches the id and `create_new` holds),
`register` returns the `NoSpaceExchanges` error and leaves the table
unchanged. -/
theorem register_capacity_bound (exchanges : List ExchangeCtx)
    (calls : List (ExchangeId × Role × Bool))
    (h : exchanges.length ≤ MAX_EXCHANGES) :
    (register_seq exchanges calls).length ≤ MAX_EXCHANGES
    ∧ (∀ (eid : ExchangeId) (role : Role), exchanges.length = MAX_EXCHANGES →
        firstIdx? (fun e => decide (e.id = eid)) exchanges = none →
        register exchanges eid role true
          = (exchanges, Except.error ErrorCode.NoSpaceExchanges)) := by
  refine ⟨register_seq_le calls exchanges h, ?_⟩
  intro eid role hfull hnone
  unfold register
  rw [hnone]
  simp [hfull]

/-- C3: every call to `process_rx` removes all exchanges whose state is
`Closed` (via `purge`) before attempting `assign_exchange`: the purged table
contains no `Closed` exchange, and `process_rx` behaves as if run on the
already-purged table, so no `Closed` exchange is present when the exchange
search for the incoming packet runs. -/
theorem process_rx_purges_closed (s : TransportState) (rx : Packet) :
    (∀ ctx ∈ purge s.exchanges, ctx.state ≠ ExchangeState.Closed)
    ∧ process_rx s rx = process_rx { s with exchanges := purge s.exchanges } rx := by
  refine ⟨purge_no_closed s.exchanges, ?_⟩
  unfold process_rx
  simp only [purge_idem]

/-- C6: when `assign_exchange` fails with `NoSpaceExchanges`, `process_rx`
sends a Busy status report and returns `none` — the packet is dropped and no
exchange slot is allocated (the table is exactly the purged input table); the
report carries `GeneralCode::Busy`, the same proto-id as the inbound packet,
and the Secure Channel `Busy` status code when the inbound proto-id is Secure
Channel, else the Interaction Model `Busy` status code. -/
theorem process_rx_busy_on_no_space_exchanges (s : TransportState) (rx : Packet)
    (s1 : TransportState)
    (h : assign_exchange { s with exchanges := purge s.exchanges } rx
         = (s1, Except.error ErrorCode.NoSpaceExchanges)) :
    process_rx s rx = Except.ok
      ({ s1 with ephemeral := none },
       [Effect.signalSend,
        Effect.sentEphemeral { id := 0, sessionId := rx.sessionId }
          (busy_status_packet rx)],
       none)
    ∧ (busy_status_packet rx).protoId = rx.protoId
    ∧ (busy_status_packet rx).payload = Payload.status GeneralCode.Busy
        (if rx.protoId = PROTO_ID_SECURE_CHANNEL then SCStatusCodes.Busy
         else IMStatusCode.Busy)
    ∧ s1.exchanges = purge s.exchanges := by
  refine ⟨?_, rfl, rfl, (assign_exchange_error_cases _ _ _ _ h).2.2 rfl⟩
  unfold process_rx
  dsimp only
  rw [rx_assign_loop_no_space_exchanges _ _ _ _ _ h]
  rfl

/-- C7: for every inbound packet on which `assign_exchange` fails with the
`Duplicate` error, `process_rx` signals the send notification and returns
`none` (the packet is dropped); the exchange table is exactly the purged
input table (no exchange state is modified) and the effect list contains no
handler wake-up and no RX delivery. -/
theorem process_rx_duplicate_drop (s : TransportState) (rx : Packet)
    (s1 : TransportState)
    (h : assign_exchange { s with exchanges := purge s.exchanges } rx
         = (s1, Except.error ErrorCode.Duplicate)) :
    process_rx s rx = Except.ok (s1, [Effect.signalSend], none)
    ∧ s1.exchanges = purge s.exchanges
    ∧ (∀ n : Nat, Effect.signalHandler n ∉ ([Effect.signalSend] : List Effect))
    ∧ (∀ (slot : Nat) (p : Packet),
        Effect.rxDelivered slot p ∉ ([Effect.signalSend] : List Effect)) := by
  refine ⟨?_, (assign_exchange_error_cases _ _ _ _ h).2.1 rfl, by simp, by simp⟩
  unfold process_rx
  dsimp only
  rw [rx_assign_loop_duplicate _ _ _ _ _ h]
  rfl

/-- C8: for every inbound packet that carries the ack flag and whose exchange
assignment created a new exchange, `process_rx` returns the `Invalid` error,
and this error is fatal to the RX multiplexer loop: it propagates out of the
`handle_rx_multiplex` iteration. -/
theorem process_rx_ack_on_new_invalid (s : TransportState) (rx : Packet)
    (s1 : TransportState) (exchange_index : Nat)
    (h1 : assign_exchange { s with exchanges := purge s.exchanges } rx
          = (s1, Except.ok (exchange_index, true)))
    (h2 : rx.ackFlag = true) :
    process_rx s rx = Except.error ErrorCode.Invalid
    ∧ handle_rx_multiplex_step s rx = Except.error ErrorCode.Invalid := by
  have hp : process_rx s rx = Except.error ErrorCode.Invalid := by
    unfold process_rx
    dsimp only
    rw [rx_assign_loop_ok _ _ _ _ _ _ _ h1]
    simp [rx_ack_phase, h2]
  refine ⟨hp, ?_⟩
  unfold handle_rx_multiplex_step
  rw [hp]

/-- C1 (amended): if, while handling a `NoSpaceSessions` error from
`assign_exchange`, `evict_session` finds no eviction candidate and fails with
`NoSpaceSessions`, that failure propagates out of `process_rx` (the source's
`evict_session(sts_tx).await?`) and is fatal to the receive loop: the
`handle_rx_multiplex` iteration returns the error instead of converting it
into a packet drop. -/
theorem process_rx_evict_failure_fatal (s : TransportState) (rx : Packet)
    (s1 : TransportState)
    (h1 : assign_exchange { s with exchanges := purge s.exchanges } rx
          = (s1, Except.error ErrorCode.NoSpaceSessions))
    (h2 : s1.sessionMgr.get_session_for_eviction = none) :
    process_rx s rx = Except.error ErrorCode.NoSpaceSessions
    ∧ handle_rx_multiplex_step s rx = Except.error ErrorCode.NoSpaceSessions := by
  have hp : process_rx s rx = Except.error ErrorCode.NoSpaceSessions := by
    unfold process_rx
    dsimp only
    rw [rx_assign_loop_evict_fails _ _ _ _ _ h1 h2]
  refine ⟨hp, ?_⟩
  unfold handle_rx_multiplex_step
  rw [hp]

/-- A transport state whose session table is full with no evictable session:
the eviction-failure path of `process_rx`. -/
def cex_state_c1 : TransportState :=
  { exchanges := [],
    sessionMgr := { sessions := [{ id := 5, evictable := false }], maxSessions := 1 },
    ephemeral := none }

/-- An inbound initiator packet addressed to an unknown session, forcing
session creation against the full table of `cex_state_c1`. -/
def cex_packet_c1 : Packet :=
  { protoId := 0, protoOpcode := 0x20, ackFlag := false, initiatorFlag := true,
    reliable := true, sessionId := 9, exchId := 1, counter := 0, peer := 3,
    payload := Payload.raw 0 }

/-- C1 counterexample: at `cex_state_c1` / `cex_packet_c1` the eviction
failure is NOT converted into a packet drop by the receive loop — the
`handle_rx_multiplex` iteration returns the `NoSpaceSessions` error (it does
not continue with an `ok` result), refuting the claim as stated. -/
theorem process_rx_evict_failure_cex :
    handle_rx_multiplex_step cex_state_c1 cex_packet_c1
      = Except.error ErrorCode.NoSpaceSessions
    ∧ isOkE (handle_rx_multiplex_step cex_state_c1 cex_packet_c1) = false := by
  constructor
  · rfl
  · rfl

/-- C1 witness: the amended theorem applied at the concrete counterexample
input. -/
theorem process_rx_evict_failure_fatal_witness :
    process_rx cex_state_c1 cex_packet_c1 = Except.error ErrorCode.NoSpaceSessions
    ∧ handle_rx_multiplex_step cex_state_c1 cex_packet_c1
      = Except.error ErrorCode.NoSpaceSessions :=
  process_rx_evict_failure_fatal cex_state_c1 cex_packet_c1 cex_state_c1
    (by rfl) (by rfl)

theorem pull_tx_eq_chained (s : TransportState) :
    (pull_tx s).sent
      = (pull_tx_exchanges (s.ephemeral.toList ++ purge s.exchanges)).sent
    ∧ (pull_tx s).content
      = (pull_tx_exchanges (s.ephemeral.toList ++ purge s.exchanges)).content := by
  cases hm : s.ephemeral <;> simp [pull_tx, hm]

/-- C4: `pull_tx` selects the first exchange context — scanning the ephemeral
slot before the regular (purged) exchange table — satisfying the selection
predicate: state in {`Acknowledge`, `ExchangeSend`, `Complete`} or the MRP
engine reporting `is_ack_ready` at the current time; if no context satisfies
the predicate it returns `false`. -/
theorem pull_tx_selection (s : TransportState) :
    ((pull_tx s).sent = false ↔
      ∀ ctx ∈ s.ephemeral.toList ++ purge s.exchanges, pull_tx_selects ctx = false)
    ∧ (∀ i, firstIdx? pull_tx_selects (s.ephemeral.toList ++ purge s.exchanges)
          = some i →
        (pull_tx s).sent = true
        ∧ (pull_tx s).content
            = some (pull_tx_serve
                ((s.ephemeral.toList ++ purge s.exchanges).getD i default)).2.1
        ∧ pull_tx_selects
            ((s.ephemeral.toList ++ purge s.exchanges).getD i default) = true
        ∧ ∀ j, j < i → pull_tx_selects
            ((s.ephemeral.toList ++ purge s.exchanges).getD j default) = false)
    ∧ (∀ ctx : ExchangeCtx, pull_tx_selects ctx
        = ((match ctx.state with
            | ExchangeState.Acknowledge _ => true
            | ExchangeState.ExchangeSend _ _ _ => true
            | ExchangeState.Complete _ _ => true
            | _ => false) || ctx.mrp.is_ack_ready)) := by
  refine ⟨?_, ?_, fun ctx => rfl⟩
  · rw [(pull_tx_eq_chained s).1]
    rcases hf : firstIdx? pull_tx_selects (s.ephemeral.toList ++ purge s.exchanges)
        with _ | i
    · have hsent : (pull_tx_exchanges (s.ephemeral.toList ++ purge s.exchanges)).sent
          = false := by
        simp only [pull_tx_exchanges, hf]
      rw [hsent]
      simp only [true_iff]
      exact (firstIdx?_eq_none_iff _ _).mp hf
    · have hsent : (pull_tx_exchanges (s.ephemeral.toList ++ purge s.exchanges)).sent
          = true := by
        simp only [pull_tx_exchanges, hf]
      rw [hsent]
      constructor
      · intro hcontra
        exact absurd hcontra (by simp)
      · intro hall
        have hsel := firstIdx?_getD _ _ i default hf
        have hlt := firstIdx?_lt _ _ _ hf
        have hfalse := hall _ (getD_mem _ i default hlt)
        rw [hsel] at hfalse
        exact absurd hfalse (by simp)
  · intro i hf
    refine ⟨?_, ?_, firstIdx?_getD _ _ i default hf, firstIdx?_min _ _ i default hf⟩
    · rw [(pull_tx_eq_chained s).1]
      simp only [pull_tx_exchanges, hf]
    · rw [(pull_tx_eq_chained s).2]
      simp only [pull_tx_exchanges, hf]

/-- C5: when `pull_tx_exchanges` services an exchange in state `Complete`, it
copies the queued TX into the outbound packet and then: if the outbound
packet is reliable, transitions the exchange to `CompleteAcknowledge`;
otherwise it signals the exchange's notification and sets the state to
`Closed`.  In both cases the call reports `true`, which is exactly what
`pull_tx` returns. -/
theorem pull_tx_complete_transition (ctxs : List ExchangeCtx) (i : Nat)
    (tx : Packet) (notify : Nat)
    (h1 : firstIdx? pull_tx_selects ctxs = some i)
    (h2 : (ctxs.getD i default).state = ExchangeState.Complete tx notify) :
    (pull_tx_exchanges ctxs).sent = true
    ∧ (pull_tx_exchanges ctxs).content = some (TxContent.msg tx)
    ∧ ((pull_tx_exchanges ctxs).ctxs.getD i default).state
        = (if tx.reliable then ExchangeState.CompleteAcknowledge tx notify
           else ExchangeState.Closed)
    ∧ (tx.reliable = false →
        Effect.signalHandler notify ∈ (pull_tx_exchanges ctxs).effects)
    ∧ (∀ s : TransportState, (pull_tx s).sent
        = (pull_tx_exchanges (s.ephemeral.toList ++ purge s.exchanges)).sent) := by
  have hlt := firstIdx?_lt _ _ _ h1
  have hserve : pull_tx_serve (ctxs.getD i default)
      = (if tx.reliable then
          ({ ctxs.getD i default with
             state := ExchangeState.CompleteAcknowledge tx notify },
           TxContent.msg tx, [])
         else
          ({ ctxs.getD i default with state := ExchangeState.Closed },
           TxContent.msg tx, [Effect.signalHandler notify])) := by
    unfold pull_tx_serve
    rw [h2]
  refine ⟨?_, ?_, ?_, ?_, fun s => (pull_tx_eq_chained s).1⟩
  · simp only [pull_tx_exchanges, h1]
  · simp only [pull_tx_exchanges, h1, hserve]
    by_cases hrel : tx.reliable <;> simp [hrel]
  · simp only [pull_tx_exchanges, h1, hserve]
    by_cases hrel : tx.reliable
    · rw [if_pos hrel, if_pos hrel]
      dsimp only
      rw [getD_set_self ctxs i _ default hlt]
    · rw [if_neg hrel, if_neg hrel]
      dsimp only
      rw [getD_set_self ctxs i _ default hlt]
  · intro hrel
    simp only [pull_tx_exchanges, h1, hserve, hrel]
    simp

/-- C10: `pull_tx` — like `process_rx` — removes all `Closed` exchanges from
the table by calling `purge` before scanning for an exchange that needs to
send: the scanned list is the ephemeral slot chained before the purged table,
the purged table contains no `Closed` exchange, and therefore the context the
scan selects is never `Closed` (given that the ephemeral slot, which
`send_ephemeral` only ever populates in state `Complete`, does not hold a
`Closed` context). -/
theorem pull_tx_purges_closed (s : TransportState)
    (h : ∀ ctx ∈ s.ephemeral.toList, ctx.state ≠ ExchangeState.Closed) :
    (∀ ctx ∈ purge s.exchanges, ctx.state ≠ ExchangeState.Closed)
    ∧ (pull_tx s).sent
        = (pull_tx_exchanges (s.ephemeral.toList ++ purge s.exchanges)).sent
    ∧ (∀ i, firstIdx? pull_tx_selects (s.ephemeral.toList ++ purge s.exchanges)
          = some i →
        ((s.ephemeral.toList ++ purge s.exchanges).getD i default).state
          ≠ ExchangeState.Closed) := by
  refine ⟨purge_no_closed s.exchanges, (pull_tx_eq_chained s).1, ?_⟩
  intro i hf
  have hlt := firstIdx?_lt _ _ _ hf
  have hmem := getD_mem _ i default hlt
  rcases List.mem_append.mp hmem with hm | hm
  · exact h _ hm
  · exact purge_no_closed s.exchanges _ hm

/-- A full exchange table: `MAX_EXCHANGES` live exchanges. -/
def wit_exchanges_full : List ExchangeCtx :=
  (List.range MAX_EXCHANGES).map (fun k =>
    { id := { id := k, sessionId := 5 }, role := Role.Responder,
      mrp := ReliableMessage.new, state := ExchangeState.Active })

/-- C2 witness: the capacity bound applied to a concrete full table. -/
theorem register_capacity_bound_witness :
    (register_seq wit_exchanges_full
        [({ id := 9, sessionId := 9 }, Role.Responder, true)]).length ≤ MAX_EXCHANGES
    ∧ register wit_exchanges_full { id := 9, sessionId := 9 } Role.Responder true
        = (wit_exchanges_full, Except.error ErrorCode.NoSpaceExchanges) := by
  have h := register_capacity_bound wit_exchanges_full
      [({ id := 9, sessionId := 9 }, Role.Responder, true)] (by decide)
  exact ⟨h.1, h.2 { id := 9, sessionId := 9 } Role.Responder (by decide) (by decide)⟩

def wit_state_c3 : TransportState :=
  { exchanges := [{ id := { id := 1, sessionId := 5 }, role := Role.Responder,
                    mrp := ReliableMessage.new, state := ExchangeState.Closed }],
    sessionMgr := { sessions := [{ id := 5, evictable := true }], maxSessions := 2 },
    ephemeral := none }

def wit_packet_c3 : Packet :=
  { protoId := 0, protoOpcode := 0x20, ackFlag := false, initiatorFlag := true,
    reliable := true, sessionId := 5, exchId := 1, counter := 0, peer := 3,
    payload := Payload.raw 0 }

/-- C3 witness: the purge property applied at a concrete state holding a
`Closed` exchange. -/
theorem process_rx_purges_closed_witness :
    (∀ ctx ∈ purge wit_state_c3.exchanges, ctx.state ≠ ExchangeState.Closed)
    ∧ process_rx wit_state_c3 wit_packet_c3
        = process_rx { wit_state_c3 with exchanges := purge wit_state_c3.exchanges }
            wit_packet_c3 :=
  process_rx_purges_closed wit_state_c3 wit_packet_c3

def wit_state_c4 : TransportState :=
  { exchanges := [{ id := { id := 2, sessionId := 5 }, role := Role.Responder,
                    mrp := ReliableMessage.new,
                    state := ExchangeState.Acknowledge 7 }],
    sessionMgr := { sessions := [], maxSessions := 1 },
    ephemeral := none }

/-- C4 witness: the selection theorem applied at a concrete state whose single
exchange owes a standalone ack. -/
theorem pull_tx_selection_witness :
    (pull_tx wit_state_c4).sent = true
    ∧ (pull_tx wit_state_c4).content = some (TxContent.ack 2) := by
  have h := (pull_tx_selection wit_state_c4).2.1 0 (by rfl)
  refine ⟨h.1, ?_⟩
  rw [h.2.1]
  rfl

def wit_tx_c5 : Packet :=
  { protoId := 1, protoOpcode := 2, ackFlag := false, initiatorFlag := false,
    reliable := false, sessionId := 5, exchId := 2, counter := 1, peer := 4,
    payload := Payload.raw 1 }

def wit_ctxs_c5 : List ExchangeCtx :=
  [{ id := { id := 2, sessionId := 5 }, role := Role.Responder,
     mrp := ReliableMessage.new, state := ExchangeState.Complete wit_tx_c5 7 }]

/-- C5 witness: the `Complete` transition applied at a concrete context with a
non-reliable queued TX. -/
theorem pull_tx_complete_transition_witness :
    (pull_tx_exchanges wit_ctxs_c5).sent = true
    ∧ (pull_tx_exchanges wit_ctxs_c5).content = some (TxContent.msg wit_tx_c5)
    ∧ ((pull_tx_exchanges wit_ctxs_c5).ctxs.getD 0 default).state
        = (if wit_tx_c5.reliable then ExchangeState.CompleteAcknowledge wit_tx_c5 7
           else ExchangeState.Closed)
    ∧ (wit_tx_c5.reliable = false →
        Effect.signalHandler 7 ∈ (pull_tx_exchanges wit_ctxs_c5).effects)
    ∧ (∀ s : TransportState, (pull_tx s).sent
        = (pull_tx_exchanges (s.ephemeral.toList ++ purge s.exchanges)).sent) :=
  pull_tx_complete_transition wit_ctxs_c5 0 wit_tx_c5 7 (by rfl) (by rfl)

def wit_state_c6 : TransportState :=
  { exchanges := wit_exchanges_full,
    sessionMgr := { sessions := [{ id := 9, evictable := true }], maxSessions := 2 },
    ephemeral := none }

def wit_packet_c6 : Packet :=
  { protoId := 0, protoOpcode := 0x20, ackFlag := false, initiatorFlag := true,
    reliable := true, sessionId := 9, exchId := 9, counter := 0, peer := 3,
    payload := Payload.raw 0 }

/-- C6 witness: the Busy path applied at a concrete state whose exchange table
is full; the emitted report carries the Secure Channel Busy code on the
inbound Secure Channel proto-id. -/
theorem process_rx_busy_witness :
    process_rx wit_state_c6 wit_packet_c6 = Except.ok
      (wit_state_c6,
       [Effect.signalSend,
        Effect.sentEphemeral { id := 0, sessionId := 9 }
          (busy_status_packet wit_packet_c6)],
       none)
    ∧ (busy_status_packet wit_packet_c6).protoId = PROTO_ID_SECURE_CHANNEL
    ∧ (busy_status_packet wit_packet_c6).payload
        = Payload.status GeneralCode.Busy SCStatusCodes.Busy := by
  have h := process_rx_busy_on_no_space_exchanges wit_state_c6 wit_packet_c6
      { wit_state_c6 with exchanges := purge wit_state_c6.exchanges } (by rfl)
  refine ⟨?_, by rfl, by rfl⟩
  rw [h.1]
  rfl

def wit_state_c7 : TransportState :=
  { exchanges := [{ id := { id := 1, sessionId := 9 }, role := Role.Responder,
                    mrp := { lastRecvCounter := some 0, ackReady := false },
                    state := ExchangeState.Active }],
    sessionMgr := { sessions := [{ id := 9, evictable := true }], maxSessions := 2 },
    ephemeral := none }

def wit_packet_c7 : Packet :=
  { protoId := 0, protoOpcode := 0x20, ackFlag := false, initiatorFlag := true,
    reliable := true, sessionId := 9, exchId := 1, counter := 0, peer := 3,
    payload := Payload.raw 0 }

/-- C7 witness: the duplicate-drop path applied at a concrete state whose
exchange has already processed the packet's MRP counter. -/
theorem process_rx_duplicate_drop_witness :
    process_rx wit_state_c7 wit_packet_c7
      = Except.ok (wit_state_c7, [Effect.signalSend], none) := by
  have h := process_rx_duplicate_drop wit_state_c7 wit_packet_c7
      { wit_state_c7 with exchanges := purge wit_state_c7.exchanges } (by rfl)
  rw [h.1]
  rfl

def wit_state_c8 : TransportState :=
  { exchanges := [],
    sessionMgr := { sessions := [{ id := 9, evictable := true }], maxSessions := 2 },
    ephemeral := none }

def wit_packet_c8 : Packet :=
  { protoId := 0, protoOpcode := 0x10, ackFlag := true, initiatorFlag := true,
    reliable := true, sessionId := 9, exchId := 3, counter := 0, peer := 3,
    payload := Payload.raw 0 }

/-- C8 witness: the invalid-ack path applied at a concrete state where the
ack-bearing packet creates a brand-new exchange. -/
theorem process_rx_ack_on_new_invalid_witness :
    process_rx wit_state_c8 wit_packet_c8 = Except.error ErrorCode.Invalid
    ∧ handle_rx_multiplex_step wit_state_c8 wit_packet_c8
        = Except.error ErrorCode.Invalid :=
  process_rx_ack_on_new_invalid wit_state_c8 wit_packet_c8
    { exchanges := [{ id := { id := 3, sessionId := 9 }, role := Role.Responder,
                      mrp := { lastRecvCounter := some 0, ackReady := false },
                      state := ExchangeState.Active }],
      sessionMgr := { sessions := [{ id := 9, evictable := true }], maxSessions := 2 },
      ephemeral := none }
    0 (by rfl) rfl

def wit_ctxs_c9 : List ExchangeCtx :=
  [{ id := { id := 1, sessionId := 9 }, role := Role.Initiator,
     mrp := ReliableMessage.new, state := ExchangeState.Active }]

/-- C9 witness: the role-mismatch path applied at a concrete table holding the
same exchange id under the `Initiator` role. -/
theorem register_role_mismatch_witness :
    register wit_ctxs_c9 { id := 1, sessionId := 9 } Role.Responder true
      = (wit_ctxs_c9, Except.error ErrorCode.NoExchange) :=
  register_role_mismatch wit_ctxs_c9 { id := 1, sessionId := 9 } Role.Responder true 0
    (by rfl) (by decide)

def wit_state_c10 : TransportState :=
  { exchanges :=
      [{ id := { id := 1, sessionId := 5 }, role := Role.Responder,
         mrp := ReliableMessage.new, state := ExchangeState.Closed },
       { id := { id := 2, sessionId := 5 }, role := Role.Responder,
         mrp := ReliableMessage.new, state := ExchangeState.Acknowledge 7 }],
    sessionMgr := { sessions := [], maxSessions := 1 },
    ephemeral := none }

/-- C10 witness: the purge-before-scan property applied at a concrete state
holding a `Closed` and an `Acknowledge` exchange, with an empty ephemeral
slot. -/
theorem pull_tx_purges_closed_witness :
    (∀ ctx ∈ purge wit_state_c10.exchanges, ctx.state ≠ ExchangeState.Closed)
    ∧ (pull_tx wit_state_c10).sent
        = (pull_tx_exchanges
            (wit_state_c10.ephemeral.toList ++ purge wit_state_c10.exchanges)).sent
    ∧ (∀ i, firstIdx? pull_tx_selects
          (wit_state_c10.ephemeral.toList ++ purge wit_state_c10.exchanges)
          = some i →
        ((wit_state_c10.ephemeral.toList ++ purge wit_state_c10.exchanges).getD
            i default).state ≠ ExchangeState.Closed) :=
  pull_tx_purges_closed wit_state_c10 (by intro ctx hctx; simp [wit_state_c10] at hctx)
